import Mathlib

/-!
Shallow embedding of the nevmo account-ledger backend.

The repository contains two variants of the same Express/Mongoose server:
* `src/backend/server.js` (called V1 below): deposit/withdraw run inside a
  mongoose session (`startSession`/`startTransaction`). The user document is
  fetched with `findById(...).session(session)`, which binds it to the
  session, so `user.save()` joins the transaction by default and
  `abortTransaction` rolls back both the balance write and the record write.
* `src/unnamed/part_000` (called V2 below): no mongo transaction at all; the
  balance is changed with an atomic `$inc` via `findByIdAndUpdate`, and the
  transaction record is saved by a separate, unguarded `transaction.save()`.

Amounts and balances are JS numbers holding currency values; they are modelled
as exact rationals (ℚ). Mongo object ids and timestamps are modelled as
naturals handed out by counters in the state.
-/

namespace Nevmo

/-- Transaction kind, the `type` field of the mongoose TransactionSchema
(enum ["deposit", "withdraw"]). -/
inductive TxType
  | deposit
  | withdraw
deriving DecidableEq

/-- One stored Transaction document: `_id`, `userId` (ObjectId back-reference),
`type`, `amount`, `date` (Date.now default). -/
structure Txn where
  tid : Nat
  userId : Nat
  type : TxType
  amount : ℚ
  date : Nat
deriving DecidableEq

/-- One stored User document (the fields the ledger touches): `_id`, `email`,
`name`, hashed `password`, `balance` (default 0). -/
structure User where
  uid : Nat
  email : String
  name : String
  passwordHash : String
  balance : ℚ
deriving DecidableEq

/-- Database state: the `users` and `transactions` collections, in insertion
order, plus counters for id assignment and the clock used for `Date.now`. -/
structure DB where
  users : List User
  txns : List Txn
  nextUid : Nat
  nextTid : Nat
  now : Nat
deriving DecidableEq

/-- A JS value arriving as `req.body.amount`. `num q` is a finite number;
the other constructors are the ill-typed shapes the zod schema rejects. -/
inductive JsVal
  | num (q : ℚ)
  | nan
  | inf
  | negInf
  | str (s : String)
  | missing
deriving DecidableEq

/-- The zod `transactionSchema`: `z.object({ amount: z.number().positive() })`.
`z.number()` rejects missing and non-number values, `NaN` and non-finite
values; `.positive()` additionally requires `0 < amount`. Returns the parsed
amount, `none` meaning a ZodError (HTTP 400 "Validation error"). -/
def parseAmount : JsVal → Option ℚ
  | .num q => if 0 < q then some q else none
  | _ => none

/-- Error outcomes of a ledger route, as distinguishable HTTP responses:
400 validation error (ZodError), 404 user not found, 400 insufficient funds,
500 internal server error (an exception reached the error handler). -/
inductive ApiError
  | validationError
  | accountNotFound
  | insufficientFunds
  | internalError
deriving DecidableEq

/-- Outcome of a deposit/withdraw route: the success JSON body
`(balance, transaction)` or an error response. -/
inductive ApplyResult
  | ok (balance : ℚ) (t : Txn)
  | err (e : ApiError)
deriving DecidableEq

/-- `User.findById(uid)`: mongo `_id` lookup, at most one document matches;
on a list model this is the first (and in reachable states only) match. -/
def findUser (db : DB) (uid : Nat) : Option User :=
  db.users.find? (fun u => u.uid == uid)

/-- Balance of an account as observed through `findById`, 0 if absent. -/
def balanceOf (db : DB) (uid : Nat) : ℚ :=
  ((findUser db uid).map User.balance).getD 0

/-- Number of stored Transaction documents owned by an account. -/
def txnCount (db : DB) (uid : Nat) : Nat :=
  (db.txns.filter (fun t => t.userId == uid)).length

/-- Update the single document matching an `_id` (mongo updates at most one
document for an `_id` filter). -/
def updateFirst (uid : Nat) (f : User → User) : List User → List User
  | [] => []
  | u :: us => if u.uid = uid then f u :: us else u :: updateFirst uid f us

/-- `findByIdAndUpdate(uid, { inc: { balance: d } })`: atomic in-place
increment of the stored balance. -/
def incBalance (db : DB) (uid : Nat) (d : ℚ) : DB :=
  { db with users := updateFirst uid (fun u => { u with balance := u.balance + d }) db.users }

/-- `user.save()` after assigning `user.balance = b`: writes back the balance
computed on the in-memory copy, overwriting the stored one. -/
def setBalance (db : DB) (uid : Nat) (b : ℚ) : DB :=
  { db with users := updateFirst uid (fun u => { u with balance := b }) db.users }

/-- `new Transaction({userId, type, amount}).save()`: persists one record with
a store-assigned `_id` and `date = Date.now`; the clock then advances. -/
def appendTxn (db : DB) (uid : Nat) (ty : TxType) (a : ℚ) : Txn × DB :=
  let t : Txn := ⟨db.nextTid, uid, ty, a, db.now⟩
  (t, { db with txns := db.txns ++ [t], nextTid := db.nextTid + 1, now := db.now + 1 })

/-- The part_000 deposit route (src/unnamed/part_000:248-284): parse the body,
atomically `$inc` the balance (404 if the id resolves to no user), then save
the Transaction record in a separate write. `appendOk` models whether that
second, unguarded `transaction.save()` succeeds; when it fails the route
answers 500 but the balance increment has already been committed. -/
def apiDepositV2 (db : DB) (uid : Nat) (body : JsVal) (appendOk : Bool) :
    ApplyResult × DB :=
  match parseAmount body with
  | none => (.err .validationError, db)
  | some a =>
    match findUser db uid with
    | none => (.err .accountNotFound, db)
    | some u =>
      let db1 := incBalance db uid a
      if appendOk then
        let (t, db2) := appendTxn db1 uid .deposit a
        (.ok (u.balance + a) t, db2)
      else
        (.err .internalError, db1)

/-- The part_000 withdraw route (src/unnamed/part_000:287-329): parse, read the
user (404 if absent), reject with 400 "Insufficient funds" when
`balance < amount`, otherwise `$inc` the balance by `-amount` and save the
record in a separate write; as in the deposit route a failing record save
leaves the decrement committed and answers 500. -/
def apiWithdrawV2 (db : DB) (uid : Nat) (body : JsVal) (appendOk : Bool) :
    ApplyResult × DB :=
  match parseAmount body with
  | none => (.err .validationError, db)
  | some a =>
    match findUser db uid with
    | none => (.err .accountNotFound, db)
    | some u =>
      if u.balance < a then
        (.err .insufficientFunds, db)
      else
        let db1 := incBalance db uid (-a)
        if appendOk then
          let (t, db2) := appendTxn db1 uid .withdraw a
          (.ok (u.balance - a) t, db2)
        else
          (.err .internalError, db1)

/-- The server.js deposit route (src/backend/server.js:186-215): a mongoose
session is started and the user is read with `findById(...).session(session)`,
binding the document to the session, so `user.balance += amount; user.save()`
and the record save both run inside the transaction. If the user is null,
`user.balance += amount` throws a TypeError which the error handler turns into
a 500 — not a 404 (nothing was written, the transaction is aborted). If the
record save fails, `abortTransaction` rolls back the session-bound balance
write together with the record, leaving the store unchanged. -/
def apiDepositV1 (db : DB) (uid : Nat) (body : JsVal) (appendOk : Bool) :
    ApplyResult × DB :=
  match parseAmount body with
  | none => (.err .validationError, db)
  | some a =>
    match findUser db uid with
    | none => (.err .internalError, db)
    | some u =>
      if appendOk then
        let db1 := setBalance db uid (u.balance + a)
        let (t, db2) := appendTxn db1 uid .deposit a
        (.ok (u.balance + a) t, db2)
      else
        (.err .internalError, db)

/-- The server.js withdraw route (src/backend/server.js:218-251): same session
structure as the deposit route; rejects with 400 "Insufficient funds" when
`amount > balance` (early return, nothing written yet), otherwise the
session-bound `user.balance -= amount; user.save()` and the record save both
run inside the transaction. A null user throws (500, nothing written); a
failed record save aborts the transaction, rolling back the balance write
with it. -/
def apiWithdrawV1 (db : DB) (uid : Nat) (body : JsVal) (appendOk : Bool) :
    ApplyResult × DB :=
  match parseAmount body with
  | none => (.err .validationError, db)
  | some a =>
    match findUser db uid with
    | none => (.err .internalError, db)
    | some u =>
      if a > u.balance then
        (.err .insufficientFunds, db)
      else if appendOk then
        let db1 := setBalance db uid (u.balance - a)
        let (t, db2) := appendTxn db1 uid .withdraw a
        (.ok (u.balance - a) t, db2)
      else
        (.err .internalError, db)

/-- Registration request body. -/
structure RegReq where
  email : String
  password : String
  name : String
deriving DecidableEq

/-- The zod email format check of `registerSchema`, modelled as the presence of
an at-sign (the ledger core never inspects an email beyond equality, so only
accept/reject matters for the properties proved here). -/
def zEmailOk (s : String) : Bool := s.data.any (fun c => c == '@')

/-- The zod `registerSchema`: email format, password at least 8 characters,
name at least 2 characters. -/
def regParseOk (r : RegReq) : Bool :=
  zEmailOk r.email && decide (8 ≤ r.password.length) && decide (2 ≤ r.name.length)

/-- Stand-in for `bcrypt.hash(password, 10)`; the hash value itself is never
inspected by the ledger. -/
def bcryptHash (p : String) : String := String.append "bcrypt:" p

/-- Outcome of the register route: 201 created, 400 validation error,
or 400 "Email already registered". -/
inductive RegResult
  | created
  | invalid
  | emailTaken
deriving DecidableEq

/-- The part_000 register route (src/unnamed/part_000:118-163): validate, then
`User.deleteMany(email)` — the comment in the source calls it a "temporary
debug fix" — then re-check for an existing user (necessarily finding none),
and create a fresh user with `balance: 0`. -/
def apiRegisterV2 (db : DB) (r : RegReq) : RegResult × DB :=
  if regParseOk r then
    let db1 : DB := { db with users := db.users.filter (fun u => u.email ≠ r.email) }
    match db1.users.find? (fun u => u.email == r.email) with
    | some _ => (.emailTaken, db1)
    | none =>
      let u : User := ⟨db1.nextUid, r.email, r.name, bcryptHash r.password, 0⟩
      (.created, { db1 with users := db1.users ++ [u], nextUid := db1.nextUid + 1 })
  else
    (.invalid, db)

/-- The server.js register route (src/backend/server.js:101-130): validate,
reject with 400 if a user with that email already exists, otherwise create a
fresh user whose balance takes the schema default 0. -/
def apiRegisterV1 (db : DB) (r : RegReq) : RegResult × DB :=
  if regParseOk r then
    match db.users.find? (fun u => u.email == r.email) with
    | some _ => (.emailTaken, db)
    | none =>
      let u : User := ⟨db.nextUid, r.email, r.name, bcryptHash r.password, 0⟩
      (.created, { db with users := db.users ++ [u], nextUid := db.nextUid + 1 })
  else
    (.invalid, db)

/-- A JSON value in a serialized response body. -/
inductive JVal
  | jstr (s : String)
  | jq (q : ℚ)
  | jn (n : Nat)
deriving DecidableEq

/-- String form of the `type` field. -/
def typeName : TxType → String
  | .deposit => "deposit"
  | .withdraw => "withdraw"

/-- Serialization of a raw mongoose Transaction document, as produced by
`res.json` in server.js (deposit/withdraw responses, lines 205-208 and
241-244, and the transactions list, line 179): every stored field appears,
including the internal `userId` reference and the version key. -/
def serializeTxnV1 (t : Txn) : List (String × JVal) :=
  [("_id", .jn t.tid), ("userId", .jn t.userId), ("type", .jstr (typeName t.type)),
   ("amount", .jq t.amount), ("date", .jn t.date), ("__v", .jn 0)]

/-- The formatted transaction record part_000 hands across the serving
boundary, built identically in the transactions list (lines 233-238) and the
deposit/withdraw responses (lines 273-278 and 318-323):
only `id`, `type`, `amount`, `date`. -/
def formatTxnV2 (t : Txn) : List (String × JVal) :=
  [("id", .jn t.tid), ("type", .jstr (typeName t.type)),
   ("amount", .jq t.amount), ("date", .jn t.date)]

/-- Comparator behind `.sort(date: -1)`: `a` comes before `b` when its date is
at least that of `b` (descending by date). -/
def dateGe (a b : Txn) : Prop := b.date ≤ a.date

instance : DecidableRel dateGe := fun a b => inferInstanceAs (Decidable (b.date ≤ a.date))

instance : IsTotal Txn dateGe := ⟨fun a b => le_total b.date a.date⟩

instance : IsTrans Txn dateGe := ⟨fun _ _ _ hab hbc => le_trans hbc hab⟩

/-- The transactions query (both variants):
`Transaction.find(userId).sort(date: -1).limit(50)` — the account's records,
ordered by date descending with ties left in store insertion order (mongo
scans the collection in insertion order and the sort is stable on it),
truncated to `limit`. -/
def listRecent (db : DB) (uid : Nat) (limit : Nat) : List Txn :=
  ((db.txns.filter (fun t => t.userId == uid)).insertionSort dateGe).take limit

/-- A single request against one account for the serial-execution model:
a deposit or withdraw body together with whether its record save succeeds. -/
inductive ApplyReq
  | dep (v : JsVal) (appendOk : Bool)
  | wd (v : JsVal) (appendOk : Bool)
deriving DecidableEq

/-- The record save of this request succeeds. -/
def reqOk : ApplyReq → Bool
  | .dep _ ok => ok
  | .wd _ ok => ok

/-- Serve one request with the part_000 routes. -/
def applyStep (db : DB) (uid : Nat) : ApplyReq → ApplyResult × DB
  | .dep v ok => apiDepositV2 db uid v ok
  | .wd v ok => apiWithdrawV2 db uid v ok

/-- Serve a list of requests one after the other (no interleaving), collecting
the responses. -/
def runApply (db : DB) (uid : Nat) : List ApplyReq → DB × List ApplyResult
  | [] => (db, [])
  | r :: rs =>
    let p := applyStep db uid r
    let q := runApply p.2 uid rs
    (q.1, p.1 :: q.2)

/-- Signed delta a response contributed to the balance: `+amount` for a
successful deposit, `-amount` for a successful withdrawal, 0 for any error. -/
def resDelta : ApplyResult → ℚ
  | .ok _ t => match t.type with
    | .deposit => t.amount
    | .withdraw => -t.amount
  | .err _ => 0

/-- 1 for a successful response, 0 for an error. -/
def okCount : ApplyResult → Nat
  | .ok _ _ => 1
  | .err _ => 0

/-- Sum of the signed deltas of the successful responses. -/
def sumDeltas (rs : List ApplyResult) : ℚ := (rs.map resDelta).sum

/-- Number of successful responses. -/
def countOks (rs : List ApplyResult) : Nat := (rs.map okCount).sum

/-- One operation in the full sequential model: a ledger request or a
registration. -/
inductive SeqOp
  | dep (v : JsVal) (appendOk : Bool)
  | wd (v : JsVal) (appendOk : Bool)
  | reg (r : RegReq)
deriving DecidableEq

/-- Serve one operation with the part_000 routes, keeping only the state. -/
def seqStep (db : DB) (uid : Nat) : SeqOp → DB
  | .dep v ok => (apiDepositV2 db uid v ok).2
  | .wd v ok => (apiWithdrawV2 db uid v ok).2
  | .reg r => (apiRegisterV2 db r).2

/-- Serve a list of operations one after the other. -/
def runSeq (db : DB) (uid : Nat) : List SeqOp → DB
  | [] => db
  | op :: ops => runSeq (seqStep db uid op) uid ops

/-- Every stored balance is non-negative. -/
def NonNeg (db : DB) : Prop := ∀ u ∈ db.users, 0 ≤ u.balance

/-- First half of the part_000 withdraw route as it interleaves with other
requests: `findById` followed by the `currentUser.balance < amount` test —
returns whether the request passes the sufficiency check against the state it
read. -/
def wCheckV2 (db : DB) (uid : Nat) (a : ℚ) : Bool :=
  match findUser db uid with
  | some u => decide (¬ u.balance < a)
  | none => false

/-- Second half of the part_000 withdraw route: the atomic
`findByIdAndUpdate(inc: -amount)` followed by the record save, executed
against whatever state holds by then. -/
def wCommitV2 (db : DB) (uid : Nat) (a : ℚ) : DB :=
  (appendTxn (incBalance db uid (-a)) uid .withdraw a).2

/-! Helper lemmas about the store operations. -/

theorem find_updateFirst (uid : Nat) (f : User → User) (hf : ∀ u, (f u).uid = u.uid)
    (us : List User) :
    (updateFirst uid f us).find? (fun u => u.uid == uid) =
      (us.find? (fun u => u.uid == uid)).map f := by
  induction us with
  | nil => rfl
  | cons u us ih =>
    by_cases h : u.uid = uid
    · have hb : ((fun u : User => u.uid == uid) u) = true := by simpa using h
      have hb2 : ((fun u : User => u.uid == uid) (f u)) = true := by simpa [hf] using h
      simp only [updateFirst, if_pos h]
      rw [List.find?_cons_of_pos (p := fun u : User => u.uid == uid) _ hb2,
        List.find?_cons_of_pos (p := fun u : User => u.uid == uid) _ hb]
      rfl
    · have hb : ¬ (((fun u : User => u.uid == uid) u) = true) := by simpa using h
      simp only [updateFirst, if_neg h]
      rw [List.find?_cons_of_neg (p := fun u : User => u.uid == uid) _ hb,
        List.find?_cons_of_neg (p := fun u : User => u.uid == uid) _ hb, ih]

theorem mem_updateFirst {uid : Nat} {f : User → User} {us : List User} {v : User}
    (hv : v ∈ updateFirst uid f us) :
    v ∈ us ∨ ∃ u, us.find? (fun u => u.uid == uid) = some u ∧ v = f u := by
  induction us with
  | nil => simp [updateFirst] at hv
  | cons u us ih =>
    by_cases h : u.uid = uid
    · have hb : ((fun u : User => u.uid == uid) u) = true := by simpa using h
      simp only [updateFirst, if_pos h] at hv
      rcases List.mem_cons.mp hv with hv | hv
      · exact Or.inr ⟨u, List.find?_cons_of_pos (p := fun u : User => u.uid == uid) _ hb, hv⟩
      · exact Or.inl (List.mem_cons_of_mem _ hv)
    · have hb : ¬ (((fun u : User => u.uid == uid) u) = true) := by simpa using h
      simp only [updateFirst, if_neg h] at hv
      rcases List.mem_cons.mp hv with hv | hv
      · exact Or.inl (by simp [hv])
      · rcases ih hv with hv | ⟨w, hw, hvw⟩
        · exact Or.inl (List.mem_cons_of_mem _ hv)
        · refine Or.inr ⟨w, ?_, hvw⟩
          rw [List.find?_cons_of_neg (p := fun u : User => u.uid == uid) _ hb]
          exact hw

theorem findUser_incBalance (db : DB) (uid : Nat) (d : ℚ) :
    findUser (incBalance db uid d) uid =
      (findUser db uid).map (fun u => { u with balance := u.balance + d }) := by
  simpa [findUser, incBalance] using
    find_updateFirst uid (fun u => { u with balance := u.balance + d }) (fun _ => rfl) db.users

theorem findUser_setBalance (db : DB) (uid : Nat) (b : ℚ) :
    findUser (setBalance db uid b) uid =
      (findUser db uid).map (fun u => { u with balance := b }) := by
  simpa [findUser, setBalance] using
    find_updateFirst uid (fun u => { u with balance := b }) (fun _ => rfl) db.users

theorem findUser_appendTxn (db : DB) (uid uid2 : Nat) (ty : TxType) (a : ℚ) :
    findUser (appendTxn db uid2 ty a).2 uid = findUser db uid := rfl

theorem balanceOf_eq (db : DB) (uid : Nat) (u : User) (hu : findUser db uid = some u) :
    balanceOf db uid = u.balance := by
  simp [balanceOf, hu]

theorem balanceOf_incBalance (db : DB) (uid : Nat) (d : ℚ) (u : User)
    (hu : findUser db uid = some u) :
    balanceOf (incBalance db uid d) uid = u.balance + d := by
  simp [balanceOf, findUser_incBalance, hu]

theorem balanceOf_setBalance (db : DB) (uid : Nat) (b : ℚ) (u : User)
    (hu : findUser db uid = some u) :
    balanceOf (setBalance db uid b) uid = b := by
  simp [balanceOf, findUser_setBalance, hu]

theorem txnCount_appendTxn (db : DB) (uid : Nat) (ty : TxType) (a : ℚ) :
    txnCount (appendTxn db uid ty a).2 uid = txnCount db uid + 1 := by
  simp [txnCount, appendTxn, List.filter_append]

theorem txnCount_incBalance (db : DB) (uid uid2 : Nat) (d : ℚ) :
    txnCount (incBalance db uid2 d) uid = txnCount db uid := rfl

theorem txnCount_setBalance (db : DB) (uid uid2 : Nat) (b : ℚ) :
    txnCount (setBalance db uid2 b) uid = txnCount db uid := rfl

theorem txns_incBalance (db : DB) (uid : Nat) (d : ℚ) :
    (incBalance db uid d).txns = db.txns := rfl

theorem txns_appendTxn (db : DB) (uid : Nat) (ty : TxType) (a : ℚ) :
    (appendTxn db uid ty a).2.txns = db.txns ++ [(appendTxn db uid ty a).1] := rfl

theorem balanceOf_appendTxn (db : DB) (uid uid2 : Nat) (ty : TxType) (a : ℚ) :
    balanceOf (appendTxn db uid2 ty a).2 uid = balanceOf db uid := rfl

theorem apiDepositV2_ok (db : DB) (uid : Nat) (v : JsVal) (a : ℚ) (u : User)
    (hu : findUser db uid = some u) (hp : parseAmount v = some a) :
    apiDepositV2 db uid v true =
      (.ok (u.balance + a) (appendTxn (incBalance db uid a) uid .deposit a).1,
        (appendTxn (incBalance db uid a) uid .deposit a).2) := by
  simp [apiDepositV2, hp, hu, appendTxn]

theorem apiWithdrawV2_ok (db : DB) (uid : Nat) (v : JsVal) (a : ℚ) (u : User)
    (hu : findUser db uid = some u) (hp : parseAmount v = some a)
    (hle : a ≤ u.balance) :
    apiWithdrawV2 db uid v true =
      (.ok (u.balance - a) (appendTxn (incBalance db uid (-a)) uid .withdraw a).1,
        (appendTxn (incBalance db uid (-a)) uid .withdraw a).2) := by
  simp [apiWithdrawV2, hp, hu, not_lt.mpr hle, appendTxn]

/-! Concrete states used by the evaluation theorems. -/

/-- A user holding balance 100. -/
def userH : User := ⟨0, "alice@mail.test", "Alice", "pw-hash", 100⟩

/-- Store with a single account of balance 100 and an empty log. -/
def dbHundred : DB := ⟨[userH], [], 1, 0, 0⟩

/-- Store with a single account of balance 0 and an empty log. -/
def dbZero : DB := ⟨[⟨0, "alice@mail.test", "Alice", "pw-hash", 0⟩], [], 1, 0, 0⟩

/-- Empty store. -/
def dbEmpty : DB := ⟨[], [], 0, 0, 0⟩

/-! Claim theorems. -/

/-- C1: evaluation of the code at the failing input. In part_000 a deposit of
100 on an account with balance 0 whose transaction-record save fails answers
500 yet leaves the balance at 100 with an empty transaction log — there is no
transaction around the two writes, so the committed delta is not rolled back
and balance and log diverge, contradicting the claimed atomic unit. In
server.js the same failure aborts the mongo transaction, and since the user
document is session-bound the balance write is rolled back with the record,
leaving the store unchanged — part_000 dropped the atomic unit the claim
(and the spec) require. -/
theorem c1_append_failure_keeps_delta :
    (apiDepositV2 dbZero 0 (JsVal.num 100) false).1 = ApplyResult.err ApiError.internalError ∧
    balanceOf (apiDepositV2 dbZero 0 (JsVal.num 100) false).2 0 = 100 ∧
    ((apiDepositV2 dbZero 0 (JsVal.num 100) false).2).txns = [] ∧
    apiDepositV1 dbZero 0 (JsVal.num 100) false
      = (ApplyResult.err ApiError.internalError, dbZero) := by
  refine ⟨?_, ?_, ?_, ?_⟩ <;>
    norm_num [apiDepositV2, apiDepositV1, dbZero, parseAmount, findUser, balanceOf,
      incBalance, setBalance, appendTxn, updateFirst]

/-- C4: a withdrawal whose amount is strictly greater than the current balance
fails with InsufficientFunds in both variants and leaves the store exactly as
it was — no transaction written, balance and transaction count unchanged. -/
theorem c4_insufficient_funds (db : DB) (uid : Nat) (u : User) (v : JsVal) (a : ℚ)
    (ok : Bool) (hu : findUser db uid = some u) (hp : parseAmount v = some a)
    (hlt : u.balance < a) :
    apiWithdrawV2 db uid v ok = (.err .insufficientFunds, db) ∧
    apiWithdrawV1 db uid v ok = (.err .insufficientFunds, db) := by
  constructor
  · simp [apiWithdrawV2, hp, hu, hlt]
  · simp [apiWithdrawV1, hp, hu, hlt]

/-- C4 witness: withdrawing 101 from balance 100 fails with InsufficientFunds
and leaves the store unchanged. -/
theorem c4_witness :
    findUser dbHundred 0 = some userH ∧ parseAmount (JsVal.num 101) = some 101 ∧
    userH.balance < 101 ∧
    apiWithdrawV2 dbHundred 0 (JsVal.num 101) true = (.err .insufficientFunds, dbHundred) ∧
    apiWithdrawV1 dbHundred 0 (JsVal.num 101) true = (.err .insufficientFunds, dbHundred) :=
  ⟨by decide, by decide, by decide,
    c4_insufficient_funds dbHundred 0 userH (JsVal.num 101) 101 true
      (by decide) (by decide) (by decide)⟩

/-- Amounts the claim calls invalid: missing, non-numeric, NaN, non-finite,
zero or negative. -/
def badAmount : JsVal → Bool
  | .num q => decide (q ≤ 0)
  | _ => true

/-- C5: any deposit or withdraw whose amount is missing, non-numeric, zero,
negative or not finite fails the zod validation (InvalidAmount, HTTP 400)
in both variants and returns the store untouched — the validation runs before
any storage access. -/
theorem c5_invalid_amount (db : DB) (uid : Nat) (v : JsVal) (ok : Bool)
    (hv : badAmount v = true) :
    apiDepositV2 db uid v ok = (.err .validationError, db) ∧
    apiWithdrawV2 db uid v ok = (.err .validationError, db) ∧
    apiDepositV1 db uid v ok = (.err .validationError, db) ∧
    apiWithdrawV1 db uid v ok = (.err .validationError, db) := by
  have hp : parseAmount v = none := by
    cases v with
    | num q =>
      have hq : q ≤ 0 := by simpa [badAmount] using hv
      simp [parseAmount, not_lt.mpr hq]
    | nan => rfl
    | inf => rfl
    | negInf => rfl
    | str s => rfl
    | missing => rfl
  refine ⟨?_, ?_, ?_, ?_⟩ <;>
    simp [apiDepositV2, apiWithdrawV2, apiDepositV1, apiWithdrawV1, hp]

/-- C5 witness: amount -5 is rejected with a validation error by all four
routes, with the store unchanged. -/
theorem c5_witness :
    badAmount (JsVal.num (-5)) = true ∧
    (apiDepositV2 dbHundred 0 (JsVal.num (-5)) true = (.err .validationError, dbHundred) ∧
      apiWithdrawV2 dbHundred 0 (JsVal.num (-5)) true = (.err .validationError, dbHundred) ∧
      apiDepositV1 dbHundred 0 (JsVal.num (-5)) true = (.err .validationError, dbHundred) ∧
      apiWithdrawV1 dbHundred 0 (JsVal.num (-5)) true = (.err .validationError, dbHundred)) :=
  ⟨by decide, c5_invalid_amount dbHundred 0 (JsVal.num (-5)) true (by decide)⟩

/-- C6: when the record save succeeds, a deposit of `a` returns and stores
balance `old + a` with exactly one new deposit record of amount `a`, and a
withdrawal of `a ≤ old` returns and stores `old - a` with exactly one new
withdraw record; in particular withdrawing the full balance yields 0
(instantiate `a = u.balance`). Proved for the part_000 routes. -/
theorem c6_success_postconditions (db : DB) (uid : Nat) (u : User) (v : JsVal) (a : ℚ)
    (hu : findUser db uid = some u) (hp : parseAmount v = some a) :
    (∃ t db2, apiDepositV2 db uid v true = (.ok (u.balance + a) t, db2) ∧
      t.type = .deposit ∧ t.amount = a ∧ db2.txns = db.txns ++ [t] ∧
      balanceOf db2 uid = u.balance + a) ∧
    (a ≤ u.balance →
      ∃ t db2, apiWithdrawV2 db uid v true = (.ok (u.balance - a) t, db2) ∧
        t.type = .withdraw ∧ t.amount = a ∧ db2.txns = db.txns ++ [t] ∧
        balanceOf db2 uid = u.balance - a) := by
  constructor
  · refine ⟨_, _, apiDepositV2_ok db uid v a u hu hp, rfl, rfl, rfl, ?_⟩
    rw [balanceOf_appendTxn]
    exact balanceOf_incBalance db uid a u hu
  · intro hle
    refine ⟨_, _, apiWithdrawV2_ok db uid v a u hu hp hle, rfl, rfl, rfl, ?_⟩
    rw [balanceOf_appendTxn]
    have := balanceOf_incBalance db uid (-a) u hu
    rw [this]
    ring

/-- C6 witness: from balance 100, a deposit of 100 yields balance 200 with a
deposit record, and a withdrawal of the exact balance 100 succeeds and yields
balance 0 with a withdraw record. -/
theorem c6_witness :
    (∃ t db2, apiDepositV2 dbHundred 0 (JsVal.num 100) true =
        (.ok (userH.balance + 100) t, db2) ∧
      t.type = .deposit ∧ t.amount = 100 ∧ db2.txns = dbHundred.txns ++ [t] ∧
      balanceOf db2 0 = userH.balance + 100) ∧
    (∃ t db2, apiWithdrawV2 dbHundred 0 (JsVal.num 100) true =
        (.ok (userH.balance - 100) t, db2) ∧
      t.type = .withdraw ∧ t.amount = 100 ∧ db2.txns = dbHundred.txns ++ [t] ∧
      balanceOf db2 0 = userH.balance - 100) :=
  ⟨(c6_success_postconditions dbHundred 0 userH (JsVal.num 100) 100
      (by decide) (by decide)).1,
    (c6_success_postconditions dbHundred 0 userH (JsVal.num 100) 100
      (by decide) (by decide)).2 (by decide)⟩

/-- C7 counterexample: in server.js, a deposit on an account id that resolves
to no user crashes (`user.balance += amount` on null) and surfaces as the
generic 500 internal error, not as the claimed AccountNotFound. -/
theorem c7_counterexample :
    apiDepositV1 dbEmpty 5 (JsVal.num 10) true = (.err .internalError, dbEmpty) ∧
    ApiError.internalError ≠ ApiError.accountNotFound := by
  decide

/-- C7 amended: in the part_000 routes, a deposit or withdraw whose account id
resolves to no user fails with AccountNotFound (HTTP 404) and leaves the store
unchanged; the server.js variant instead surfaces a generic internal failure
(also without mutating anything). -/
theorem c7_not_found_v2 (db : DB) (uid : Nat) (v : JsVal) (a : ℚ) (ok : Bool)
    (hp : parseAmount v = some a) (hu : findUser db uid = none) :
    apiDepositV2 db uid v ok = (.err .accountNotFound, db) ∧
    apiWithdrawV2 db uid v ok = (.err .accountNotFound, db) := by
  constructor <;> simp [apiDepositV2, apiWithdrawV2, hp, hu]

/-- C7 witness: on the empty store, account id 5 resolves to no user and both
part_000 routes answer AccountNotFound without mutating anything. -/
theorem c7_witness :
    parseAmount (JsVal.num 10) = some 10 ∧ findUser dbEmpty 5 = none ∧
    (apiDepositV2 dbEmpty 5 (JsVal.num 10) true = (.err .accountNotFound, dbEmpty) ∧
      apiWithdrawV2 dbEmpty 5 (JsVal.num 10) true = (.err .accountNotFound, dbEmpty)) :=
  ⟨by decide, by decide,
    c7_not_found_v2 dbEmpty 5 (JsVal.num 10) 10 true (by decide) (by decide)⟩

/-! Non-negativity of balances under sequential execution. -/

theorem parseAmount_pos {v : JsVal} {a : ℚ} (hp : parseAmount v = some a) : 0 < a := by
  cases v with
  | num q =>
    simp only [parseAmount] at hp
    split at hp
    · cases hp
      assumption
    · cases hp
  | nan => cases hp
  | inf => cases hp
  | negInf => cases hp
  | str s => cases hp
  | missing => cases hp

theorem nonNeg_updateFirst (uid : Nat) (f : User → User) (us : List User)
    (h : ∀ u ∈ us, 0 ≤ u.balance)
    (hf : ∀ u, us.find? (fun u => u.uid == uid) = some u → 0 ≤ (f u).balance) :
    ∀ v ∈ updateFirst uid f us, 0 ≤ v.balance := by
  intro v hv
  rcases mem_updateFirst hv with hv | ⟨u, hu, rfl⟩
  · exact h v hv
  · exact hf u hu

theorem nonNeg_apiDepositV2 (db : DB) (uid : Nat) (v : JsVal) (ok : Bool)
    (h : NonNeg db) : NonNeg (apiDepositV2 db uid v ok).2 := by
  unfold apiDepositV2
  cases hp : parseAmount v with
  | none => exact h
  | some a =>
    have ha : 0 < a := parseAmount_pos hp
    cases hu : findUser db uid with
    | none => exact h
    | some u =>
      have hinc : NonNeg (incBalance db uid a) := by
        intro w hw
        exact nonNeg_updateFirst uid _ db.users h
          (fun x hx => add_nonneg (h x (List.mem_of_find?_eq_some hx)) ha.le) w hw
      cases ok with
      | false => exact hinc
      | true => exact hinc

theorem nonNeg_apiWithdrawV2 (db : DB) (uid : Nat) (v : JsVal) (ok : Bool)
    (h : NonNeg db) : NonNeg (apiWithdrawV2 db uid v ok).2 := by
  unfold apiWithdrawV2
  cases hp : parseAmount v with
  | none => exact h
  | some a =>
    cases hu : findUser db uid with
    | none => exact h
    | some u =>
      by_cases hlt : u.balance < a
      · simp only [if_pos hlt]
        exact h
      · simp only [if_neg hlt]
        have hinc : NonNeg (incBalance db uid (-a)) := by
          intro w hw
          refine nonNeg_updateFirst uid _ db.users h (fun x hx => ?_) w hw
          have hxu : x = u := by
            have : findUser db uid = some x := hx
            rw [hu] at this
            exact (Option.some_inj.mp this).symm
          subst hxu
          have : a ≤ x.balance := not_lt.mp hlt
          simpa using sub_nonneg.mpr this
        cases ok with
        | false => exact hinc
        | true => exact hinc

theorem nonNeg_apiRegisterV2 (db : DB) (r : RegReq) (h : NonNeg db) :
    NonNeg (apiRegisterV2 db r).2 := by
  unfold apiRegisterV2
  by_cases hr : regParseOk r = true
  · simp only [if_pos hr]
    have hfil : ∀ u ∈ db.users.filter (fun u => u.email ≠ r.email), 0 ≤ u.balance :=
      fun u hu => h u (List.mem_of_mem_filter hu)
    cases hfind : (db.users.filter (fun u => u.email ≠ r.email)).find?
        (fun u => u.email == r.email) with
    | some w => exact hfil
    | none =>
      intro u hu
      rcases List.mem_append.mp hu with hu | hu
      · exact hfil u hu
      · rcases List.mem_singleton.mp hu with rfl
        exact le_refl 0
  · simp only [if_neg hr]
    exact h

theorem nonNeg_seqStep (db : DB) (uid : Nat) (op : SeqOp) (h : NonNeg db) :
    NonNeg (seqStep db uid op) := by
  cases op with
  | dep v ok => exact nonNeg_apiDepositV2 db uid v ok h
  | wd v ok => exact nonNeg_apiWithdrawV2 db uid v ok h
  | reg r => exact nonNeg_apiRegisterV2 db r h

/-- C2 amended: under SEQUENTIAL execution of any mixture of part_000
deposits, withdrawals (with record saves succeeding or failing) and
registrations, every stored balance stays non-negative — before and after
every operation, hence at every state of the run. -/
theorem c2_sequential_nonneg (db : DB) (uid : Nat) (ops : List SeqOp)
    (h : NonNeg db) : NonNeg (runSeq db uid ops) := by
  induction ops generalizing db with
  | nil => exact h
  | cons op ops ih => exact ih _ (nonNeg_seqStep db uid op h)

/-- C2 witness: starting from a non-negative store, a concrete run of
deposit 50, a withdrawal of 30 whose record save fails, and a registration
still leaves every balance non-negative. -/
theorem c2_witness :
    NonNeg dbHundred ∧
    NonNeg (runSeq dbHundred 0
      [SeqOp.dep (JsVal.num 50) true, SeqOp.wd (JsVal.num 30) false,
        SeqOp.reg ⟨"bob@mail.test", "password1", "Bob"⟩]) := by
  have h : NonNeg dbHundred := by
    intro u hu
    rcases List.mem_singleton.mp hu with rfl
    norm_num [userH]
  exact ⟨h, c2_sequential_nonneg dbHundred 0 _ h⟩

/-- C2 counterexample: two concurrent part_000 withdrawals of 60 against
balance 100 — both sufficiency checks read the initial state before either
atomic decrement commits (the check and the write are separate storage calls),
so both pass, and after both commits the stored balance is -20 < 0: the
invariant is violated under interleaving. -/
theorem c2_counterexample :
    wCheckV2 dbHundred 0 60 = true ∧
    balanceOf (wCommitV2 (wCommitV2 dbHundred 0 60) 0 60) 0 = -20 ∧
    ¬ (0 : ℚ) ≤ balanceOf (wCommitV2 (wCommitV2 dbHundred 0 60) 0 60) 0 := by
  refine ⟨?_, ?_, ?_⟩ <;>
    norm_num [wCheckV2, wCommitV2, dbHundred, userH, findUser, balanceOf,
      incBalance, appendTxn, updateFirst]

/-! Serial accounting: balance equals initial plus the committed deltas. -/

theorem applyStep_spec (db : DB) (uid : Nat) (r : ApplyReq) (hok : reqOk r = true) :
    balanceOf (applyStep db uid r).2 uid
      = balanceOf db uid + resDelta (applyStep db uid r).1 ∧
    txnCount (applyStep db uid r).2 uid
      = txnCount db uid + okCount (applyStep db uid r).1 := by
  cases r with
  | dep v ok =>
    have hoktrue : ok = true := hok
    subst hoktrue
    simp only [applyStep]
    cases hp : parseAmount v with
    | none => simp [apiDepositV2, hp, resDelta, okCount]
    | some a =>
      cases hu : findUser db uid with
      | none => simp [apiDepositV2, hp, hu, resDelta, okCount]
      | some u =>
        rw [apiDepositV2_ok db uid v a u hu hp]
        constructor
        · rw [balanceOf_appendTxn, balanceOf_incBalance db uid a u hu,
            balanceOf_eq db uid u hu]
          simp [resDelta, appendTxn]
        · rw [txnCount_appendTxn, txnCount_incBalance]
          simp [okCount]
  | wd v ok =>
    have hoktrue : ok = true := hok
    subst hoktrue
    simp only [applyStep]
    cases hp : parseAmount v with
    | none => simp [apiWithdrawV2, hp, resDelta, okCount]
    | some a =>
      cases hu : findUser db uid with
      | none => simp [apiWithdrawV2, hp, hu, resDelta, okCount]
      | some u =>
        by_cases hlt : u.balance < a
        · simp [apiWithdrawV2, hp, hu, hlt, resDelta, okCount]
        · rw [apiWithdrawV2_ok db uid v a u hu hp (not_lt.mp hlt)]
          constructor
          · rw [balanceOf_appendTxn, balanceOf_incBalance db uid (-a) u hu,
              balanceOf_eq db uid u hu]
            simp [resDelta, appendTxn]
          · rw [txnCount_appendTxn, txnCount_incBalance]
            simp [okCount]

/-- C3 amended: when the apply calls on one account are executed serially (no
interleaving inside a call) and every record save succeeds, the final balance
equals the initial balance plus the sum of the signed deltas of exactly the
successful calls, and the number of successful calls equals the number of new
Transaction records for the account. -/
theorem c3_serial_accounting (db : DB) (uid : Nat) (rs : List ApplyReq)
    (hok : ∀ r ∈ rs, reqOk r = true) :
    balanceOf (runApply db uid rs).1 uid
      = balanceOf db uid + sumDeltas (runApply db uid rs).2 ∧
    txnCount (runApply db uid rs).1 uid
      = txnCount db uid + countOks (runApply db uid rs).2 := by
  induction rs generalizing db with
  | nil => simp [runApply, sumDeltas, countOks]
  | cons r rs ih =>
    have h1 := applyStep_spec db uid r (hok r (List.mem_cons_self r rs))
    have h2 := ih (applyStep db uid r).2 (fun x hx => hok x (List.mem_cons_of_mem _ hx))
    simp only [runApply, sumDeltas, countOks, List.map_cons, List.sum_cons] at h2 ⊢
    constructor
    · rw [h2.1, h1.1]
      ring
    · rw [h2.2, h1.2]
      omega

/-- C3 witness: a concrete serial run (deposit 30, withdraw 50, failed
withdraw of 1000) on balance 100 satisfies the accounting equations. -/
theorem c3_witness :
    (∀ r ∈ [ApplyReq.dep (JsVal.num 30) true, ApplyReq.wd (JsVal.num 50) true,
        ApplyReq.wd (JsVal.num 1000) true], reqOk r = true) ∧
    (balanceOf (runApply dbHundred 0 [ApplyReq.dep (JsVal.num 30) true,
        ApplyReq.wd (JsVal.num 50) true, ApplyReq.wd (JsVal.num 1000) true]).1 0
      = balanceOf dbHundred 0 + sumDeltas (runApply dbHundred 0
          [ApplyReq.dep (JsVal.num 30) true, ApplyReq.wd (JsVal.num 50) true,
            ApplyReq.wd (JsVal.num 1000) true]).2 ∧
    txnCount (runApply dbHundred 0 [ApplyReq.dep (JsVal.num 30) true,
        ApplyReq.wd (JsVal.num 50) true, ApplyReq.wd (JsVal.num 1000) true]).1 0
      = txnCount dbHundred 0 + countOks (runApply dbHundred 0
          [ApplyReq.dep (JsVal.num 30) true, ApplyReq.wd (JsVal.num 50) true,
            ApplyReq.wd (JsVal.num 1000) true]).2) :=
  ⟨by decide, c3_serial_accounting dbHundred 0 _ (by decide)⟩

/-- C3 counterexample: a single part_000 deposit of 100 on balance 0 whose
record save fails. The call is unsuccessful (it answers 500) and writes no
record, yet its balance delta commits because part_000 has no transaction: the
final balance is 100 while the initial balance plus the sum of the signed
deltas of the successful calls is 0 — the claimed accounting equality fails,
with no interleaving needed. -/
theorem c3_counterexample :
    (runApply dbZero 0 [ApplyReq.dep (JsVal.num 100) false]).2
      = [ApplyResult.err ApiError.internalError] ∧
    sumDeltas (runApply dbZero 0 [ApplyReq.dep (JsVal.num 100) false]).2 = 0 ∧
    countOks (runApply dbZero 0 [ApplyReq.dep (JsVal.num 100) false]).2 = 0 ∧
    balanceOf (runApply dbZero 0 [ApplyReq.dep (JsVal.num 100) false]).1 0 = 100 ∧
    balanceOf (runApply dbZero 0 [ApplyReq.dep (JsVal.num 100) false]).1 0
      ≠ balanceOf dbZero 0
        + sumDeltas (runApply dbZero 0 [ApplyReq.dep (JsVal.num 100) false]).2 := by
  refine ⟨?_, ?_, ?_, ?_, ?_⟩ <;>
    norm_num [runApply, applyStep, apiDepositV2, dbZero, parseAmount, findUser,
      balanceOf, incBalance, appendTxn, updateFirst, sumDeltas, countOks,
      resDelta, okCount]

/-! Ordering and stability of the transaction-history query. -/

theorem filter_orderedInsert (d : Nat) (t : Txn) (l : List Txn) :
    (List.orderedInsert dateGe t l).filter (fun x => x.date == d) =
      if t.date = d then t :: l.filter (fun x => x.date == d)
      else l.filter (fun x => x.date == d) := by
  induction l with
  | nil => by_cases h : t.date = d <;> simp [List.orderedInsert, h]
  | cons b l ih =>
    by_cases hr : dateGe t b
    · by_cases h : t.date = d <;>
        simp [List.orderedInsert, if_pos hr, List.filter_cons, h]
    · have hlt : t.date < b.date := lt_of_not_le hr
      by_cases h : t.date = d
      · have hb : ¬ b.date = d := by omega
        simp [List.orderedInsert, if_neg hr, List.filter_cons, hb, ih, h]
      · simp [List.orderedInsert, if_neg hr, List.filter_cons, ih, h]

theorem filter_insertionSort (d : Nat) (l : List Txn) :
    (l.insertionSort dateGe).filter (fun x => x.date == d) =
      l.filter (fun x => x.date == d) := by
  induction l with
  | nil => rfl
  | cons t l ih =>
    by_cases h : t.date = d <;>
      simp [List.insertionSort, filter_orderedInsert, ih, List.filter_cons, h]

/-- C8: for every store and account, the history query result is ordered by
date descending; among records of equal date the result preserves store
insertion order (its date-d records form a prefix of the account's date-d
records in insertion order); its length is the smaller of 50 and the number
of the account's records; every returned record belongs to the account; and
an account with no records yields the empty list, not an error. -/
theorem c8_history (db : DB) (uid : Nat) :
    (listRecent db uid 50).Pairwise dateGe ∧
    (∀ d : Nat, (listRecent db uid 50).filter (fun t => t.date == d) <+:
        (db.txns.filter (fun t => t.userId == uid)).filter (fun t => t.date == d)) ∧
    (listRecent db uid 50).length = min 50 (txnCount db uid) ∧
    (∀ t ∈ listRecent db uid 50, t.userId = uid ∧ t ∈ db.txns) ∧
    ((∀ t ∈ db.txns, t.userId ≠ uid) → listRecent db uid 50 = []) := by
  refine ⟨?_, ?_, ?_, ?_, ?_⟩
  · exact List.Pairwise.sublist (List.take_sublist _ _)
      (List.sorted_insertionSort dateGe _)
  · intro d
    have hpre : (listRecent db uid 50).filter (fun t => t.date == d) <+:
        ((db.txns.filter (fun t => t.userId == uid)).insertionSort dateGe).filter
          (fun t => t.date == d) :=
      (List.take_prefix _ _).filter _
    rwa [filter_insertionSort] at hpre
  · rw [listRecent, List.length_take,
      (List.perm_insertionSort dateGe _).length_eq]
    rfl
  · intro t ht
    have hmem : t ∈ (db.txns.filter (fun t => t.userId == uid)).insertionSort dateGe :=
      (List.take_sublist _ _).subset ht
    rw [List.mem_insertionSort] at hmem
    have := List.mem_filter.mp hmem
    exact ⟨by simpa using this.2, this.1⟩
  · intro hnone
    have hfil : db.txns.filter (fun t => t.userId == uid) = [] := by
      rw [List.filter_eq_nil_iff]
      intro t ht
      simpa using hnone t ht
    rw [listRecent, hfil]
    rfl

/-- Concrete log for the history witness: two records of account 0 sharing
date 10 (insertion order txA then txB) and a later record of account 1. -/
def dbC8 : DB :=
  ⟨[], [⟨0, 0, .deposit, 5, 10⟩, ⟨1, 0, .withdraw, 3, 10⟩, ⟨2, 1, .deposit, 2, 20⟩], 0, 3, 21⟩

/-- C8 witness: on a concrete log with two same-date records for account 0 and
one for account 1, the history of account 0 is date-descending with ties in
insertion order, and the history of account 7 (no records) is empty. -/
theorem c8_witness :
    (listRecent dbC8 0 50).Pairwise dateGe ∧
    ((listRecent dbC8 0 50).filter (fun t => t.date == 10) <+:
      (dbC8.txns.filter (fun t => t.userId == 0)).filter (fun t => t.date == 10)) ∧
    listRecent dbC8 7 50 = [] :=
  ⟨(c8_history dbC8 0).1, (c8_history dbC8 0).2.1 10,
    (c8_history dbC8 7).2.2.2.2 (by decide)⟩

/-! Registration and the response-record shape. -/

/-- Existing account for the registration evaluation: balance 70. -/
def userC9 : User := ⟨0, "carol@mail.test", "Carol", "pw-hash", 70⟩

/-- Store holding only that account. -/
def dbC9 : DB := ⟨[userC9], [], 1, 0, 0⟩

/-- A valid registration request reusing the existing email. -/
def regC9 : RegReq := ⟨"carol@mail.test", "password1", "Carol Two"⟩

/-- C9: evaluation of the code at the failing input. In part_000, registering
with the email of an existing account (balance 70) succeeds and DELETES that
account (`User.deleteMany` on the email, marked "temporary debug fix" in the
source): afterwards the store holds only a fresh user with balance 0, and the
previously existing account and its balance are gone. -/
theorem c9_register_deletes_account :
    (apiRegisterV2 dbC9 regC9).1 = RegResult.created ∧
    userC9 ∉ (apiRegisterV2 dbC9 regC9).2.users ∧
    (apiRegisterV2 dbC9 regC9).2.users =
      [⟨1, "carol@mail.test", "Carol Two", bcryptHash "password1", 0⟩] := by
  decide

/-- Transaction record of the C10 counterexample: the one created by the
concrete deposit below. -/
def txC10 : Txn := ⟨0, 0, .deposit, 25, 0⟩

/-- C10 counterexample: a successful server.js deposit hands the raw stored
record across the serving boundary, and its serialization contains the key
"userId" — the owning account's internal storage identifier — contradicting
the claimed record shape of exactly id, kind, amount, occurredAt. -/
theorem c10_counterexample :
    (apiDepositV1 dbHundred 0 (JsVal.num 25) true).1 =
      ApplyResult.ok (userH.balance + 25) txC10 ∧
    "userId" ∈ (serializeTxnV1 txC10).map Prod.fst := by
  constructor
  · simp [apiDepositV1, dbHundred, userH, parseAmount, findUser, appendTxn,
      setBalance, updateFirst, txC10]
  · decide

/-- C10 amended: the part_000 routes format every transaction record handed
across the serving boundary (deposit/withdraw responses and the history list)
as exactly the four keys id, type, amount, date — the code-level names of
id, kind, amount, occurredAt — and in particular never expose the owning
account's userId; the server.js variant instead returns the raw stored record
including userId. -/
theorem c10_v2_record_shape (t : Txn) :
    (formatTxnV2 t).map Prod.fst = ["id", "type", "amount", "date"] ∧
    "userId" ∉ (formatTxnV2 t).map Prod.fst := by
  refine ⟨rfl, ?_⟩
  rw [show (formatTxnV2 t).map Prod.fst = ["id", "type", "amount", "date"] from rfl]
  decide

/-- C10 witness: the shape property evaluated on the concrete record of the
deposit above. -/
theorem c10_witness :
    (formatTxnV2 txC10).map Prod.fst = ["id", "type", "amount", "date"] ∧
    "userId" ∉ (formatTxnV2 txC10).map Prod.fst :=
  c10_v2_record_shape txC10

end Nevmo
